import Mathlib

/-!
Verification of the HID-BPF device-event transformation pipeline
(include/linux/hid_bpf.h and its dispatch engine).

The header `hid_bpf.h` gives the user-facing context structure
(`hid_bpf_ctx`, whose `size` and `retval` share storage through a union),
the per-device aggregate `hid_bpf` and the attachment structure
`hid_bpf_ops`, together with the declarations of the dispatch entry points
(`dispatch_hid_bpf_device_event`, `call_hid_bpf_rdesc_fixup`).  The bodies
of those entry points and of the attach/detach machinery are not part of
the available sources, so they are modelled from the specification; each
such definition is marked `Modelled from the spec:` in its doc comment.
-/

/-- The `hid_bpf_ctx` structure of `hid_bpf.h`.  In the C source `retval`
and `size` are the two members of an anonymous union, so they occupy the
same four bytes of storage; we embed the union as the single field
`size_retval_union` read and written through the accessors below.
`allocated_size` is the read-only allocated size of the data buffer. -/
structure hid_bpf_ctx where
  allocated_size : Nat
  size_retval_union : Int
deriving Repr, DecidableEq

/-- Reading the `size` member of the union of `hid_bpf_ctx`. -/
def hid_bpf_ctx.size (c : hid_bpf_ctx) : Int :=
  c.size_retval_union

/-- Reading the `retval` member of the union of `hid_bpf_ctx`. -/
def hid_bpf_ctx.retval (c : hid_bpf_ctx) : Int :=
  c.size_retval_union

/-- Writing the `size` member of the union of `hid_bpf_ctx`. -/
def hid_bpf_ctx.setSize (c : hid_bpf_ctx) (v : Int) : hid_bpf_ctx :=
  { c with size_retval_union := v }

/-- Writing the `retval` member of the union of `hid_bpf_ctx`. -/
def hid_bpf_ctx.setRetval (c : hid_bpf_ctx) (v : Int) : hid_bpf_ctx :=
  { c with size_retval_union := v }

/-- `HID_BPF_MAX_PROGS_PER_DEV` from `hid_bpf.h`: the cap on the number of
slots in one device's program chain. -/
def HID_BPF_MAX_PROGS_PER_DEV : Nat := 64

/-- Modelled from the spec: the `ReportBuffer` leaf data structure (the
`device_data`/`allocated_data` pair of `struct hid_bpf`, plus the logical
`size` tracked by the dispatch engine): an owned byte buffer with a
declared allocated capacity and a current valid length. -/
structure ReportBuffer where
  allocated_capacity : Nat
  valid_length : Nat
  bytes : List Nat
deriving Repr, DecidableEq

/-- Modelled from the spec: the buffer invariant that must hold at every
observation point: `valid_length ≤ allocated_capacity`. -/
def ReportBuffer.inv (b : ReportBuffer) : Prop :=
  b.valid_length ≤ b.allocated_capacity

instance (b : ReportBuffer) : Decidable b.inv := by
  unfold ReportBuffer.inv
  infer_instance

/-- Modelled from the spec: the errors of the core's taxonomy. -/
inductive HidError where
  | outOfMemory
deriving Repr, DecidableEq

/-- Modelled from the spec: what one program callback does with the buffer
it is handed.  A callback either finishes, yielding its integer return
value and the bytes it wrote (`done`), or first requests synchronous
capacity growth via `ensure_capacity` and then continues with the grown
buffer (`grow`). -/
inductive StageAction where
  | done (ret : Int) (written : List Nat)
  | grow (min_bytes : Nat) (cont : ReportBuffer → StageAction)

/-- Modelled from the spec: a program entry point (`hid_device_event` or
`hid_rdesc_fixup` of `struct hid_bpf_ops`): a function from the context
buffer to the callback's behaviour. -/
def Stage : Type := ReportBuffer → StageAction

/-- Modelled from the spec: `ensure_capacity(min_bytes)` of ReportBuffer.
`canAlloc` is the allocator oracle.  Grows `allocated_capacity` to at
least `min_bytes` if currently smaller, preserving the first
`valid_length` bytes of content; on allocation failure it reports
`OutOfMemory` and returns the buffer in its prior, unmodified state. -/
def ensure_capacity (canAlloc : Nat → Bool) (b : ReportBuffer) (min_bytes : Nat) :
    ReportBuffer × Option HidError :=
  if min_bytes ≤ b.allocated_capacity then
    (b, none)
  else if canAlloc min_bytes then
    ({ allocated_capacity := min_bytes,
       valid_length := b.valid_length,
       bytes := b.bytes.take b.valid_length ++
                List.replicate (min_bytes - b.valid_length) 0 }, none)
  else
    (b, some HidError.outOfMemory)

/-- Modelled from the spec: running one callback's `StageAction` against
the buffer, satisfying capacity-growth requests synchronously through
`ensure_capacity`; an allocation failure is propagated immediately. -/
def runStage (canAlloc : Nat → Bool) : StageAction → ReportBuffer →
    Except HidError (Int × List Nat × ReportBuffer)
  | StageAction.done ret written, b => Except.ok (ret, written, b)
  | StageAction.grow min_bytes cont, b =>
    match ensure_capacity canAlloc b min_bytes with
    | (b', none) => runStage canAlloc (cont b') b'
    | (_, some e) => Except.error e

/-- Modelled from the spec: the outcome of one event dispatch. -/
inductive DispatchResult where
  | ok (buf : ReportBuffer)
  | discarded (reason : Int)
  | invalidLength
  | outOfMemory
deriving Repr

/-- Modelled from the spec: the event-dispatch loop of the DispatchEngine
(`dispatch_hid_bpf_device_event`), instrumented with a counter of invoked
stages.  Each callback's return value is interpreted per stage: `0` keeps
the current `valid_length`; positive `k` fails the whole dispatch with
`InvalidLength` if `k > allocated_capacity` and otherwise sets
`valid_length := k`; negative aborts the chain, discarding the event with
the value as reason.  The per-stage capacity check is the spec's
deliberate strict choice for the positive-return case. -/
def runChainCount (canAlloc : Nat → Bool) : List Stage → ReportBuffer →
    DispatchResult × Nat
  | [], b => (DispatchResult.ok b, 0)
  | s :: rest, b =>
    match runStage canAlloc (s b) b with
    | Except.error _ => (DispatchResult.outOfMemory, 1)
    | Except.ok (ret, written, b') =>
      if ret < 0 then
        (DispatchResult.discarded ret, 1)
      else if ret = 0 then
        let r := runChainCount canAlloc rest { b' with bytes := written }
        (r.1, r.2 + 1)
      else if b'.allocated_capacity < ret.toNat then
        (DispatchResult.invalidLength, 1)
      else
        let r := runChainCount canAlloc rest
          { b' with bytes := written, valid_length := ret.toNat }
        (r.1, r.2 + 1)

/-- Modelled from the spec: the event-dispatch loop, result only. -/
def runChain (canAlloc : Nat → Bool) (chain : List Stage) (b : ReportBuffer) :
    DispatchResult :=
  (runChainCount canAlloc chain b).1

/-- The two values of the `flags` field of `struct hid_bpf_ops`
(`0` or `BPF_F_BEFORE`), the slot's ordering priority. -/
inductive Priority where
  | default
  | before
deriving Repr, DecidableEq

/-- Modelled from the spec: a `ProgramSlot` — one attached program's
identity, priority and optional entry points (the per-program data of
`struct hid_bpf_ops`). -/
structure ProgramSlot where
  ident : Nat
  priority_flags : Priority
  on_event : Option Stage
  on_descriptor_fixup : Option Stage
  active : Bool

/-- Modelled from the spec: a `DeviceBinding` — the per-device aggregate
(`struct hid_bpf`): program chain, persistent report buffer and the
`destroyed` flag. -/
structure DeviceBinding where
  chain : List ProgramSlot
  buf : ReportBuffer
  destroyed : Bool

/-- Modelled from the spec: the error taxonomy of `attach`. -/
inductive AttachError where
  | conflict
  | invalidSlot
deriving Repr, DecidableEq

/-- Whether the chain holds an active slot with the given program
identity. -/
def hasActiveIdent (chain : List ProgramSlot) (ident : Nat) : Bool :=
  chain.any (fun t => t.active && t.ident == ident)

/-- Modelled from the spec: priority-major insertion into the chain: a
`Before`-flagged slot goes ahead of every `Default` slot but after the
already-present `Before` slots (FIFO among equal priority); a `Default`
slot is appended. -/
def insertSlot (s : ProgramSlot) (chain : List ProgramSlot) : List ProgramSlot :=
  match s.priority_flags with
  | Priority.before =>
    chain.filter (fun t => t.priority_flags == Priority.before) ++
    s :: chain.filter (fun t => !(t.priority_flags == Priority.before))
  | Priority.default => chain ++ [s]

/-- Modelled from the spec: `attach(slot)` on the ProgramChain.  Fails
with `Conflict` if the owning binding is destroyed, if an active slot with
the same program identity is already attached, or if the chain is at the
`HID_BPF_MAX_PROGS_PER_DEV` cap; a slot with neither callback populated is
invalid; otherwise the slot is activated and inserted per priority. -/
def attach (b : DeviceBinding) (s : ProgramSlot) : Except AttachError DeviceBinding :=
  if b.destroyed then Except.error AttachError.conflict
  else if hasActiveIdent b.chain s.ident then Except.error AttachError.conflict
  else if HID_BPF_MAX_PROGS_PER_DEV ≤ b.chain.length then Except.error AttachError.conflict
  else if s.on_event.isNone && s.on_descriptor_fixup.isNone then
    Except.error AttachError.invalidSlot
  else Except.ok { b with chain := insertSlot { s with active := true } b.chain }

/-- Modelled from the spec: `detach(handle)` — removes the slot with the
given program identity from the chain. -/
def detach (b : DeviceBinding) (ident : Nat) : DeviceBinding :=
  { b with chain := b.chain.filter (fun t => !(t.ident == ident)) }

/-- Modelled from the spec: DeviceBinding teardown entry
(`hid_bpf_destroy_device`): sets `destroyed` so that every subsequent
attach fails and every subsequent dispatch no-ops, and deactivates all
slots (`mark_all_destroyed`). -/
def destroyBinding (b : DeviceBinding) : DeviceBinding :=
  { b with destroyed := true,
           chain := b.chain.map (fun t => { t with active := false }) }

/-- Modelled from the spec: the event callbacks of the active slots of the
chain, in iteration order. -/
def activeEventStages (chain : List ProgramSlot) : List Stage :=
  chain.filterMap (fun t => if t.active then t.on_event else none)

/-- Modelled from the spec: one full event dispatch on a binding
(`dispatch_hid_bpf_device_event`): if the binding is destroyed the
dispatch no-ops; otherwise the persistent buffer is (lazily) sized to the
incoming report, loaded with its bytes, and driven through the chain.  On
success the binding keeps the transformed buffer; any abort leaves the
binding's buffer in its prior state. -/
def dispatchOp (canAlloc : Nat → Bool) (b : DeviceBinding) (input : List Nat) :
    DeviceBinding × DispatchResult :=
  if b.destroyed then (b, DispatchResult.ok b.buf)
  else
    match runChain canAlloc (activeEventStages b.chain)
      { allocated_capacity := max b.buf.allocated_capacity input.length,
        valid_length := input.length,
        bytes := input } with
    | DispatchResult.ok buf' => ({ b with buf := buf' }, DispatchResult.ok buf')
    | r => (b, r)

/-- Modelled from the spec: the fixed scratch capacity handed to the
descriptor-fixup program (`HID_BPF_RDESC_FIXUP` memory, 4 KB). -/
def HID_BPF_RDESC_FIXUP_SIZE : Nat := 4096

/-- Modelled from the spec: the descriptor-fixup path
(`call_hid_bpf_rdesc_fixup`): the registered fixup program, if any, runs
once over a 4096-byte scratch buffer pre-populated with the original
descriptor; `0` keeps the original length, positive sets a new length
(bounded by the capacity), and a negative return or any failure aborts the
fixup and falls back to the original, un-fixed-up descriptor bytes. -/
def call_hid_bpf_rdesc_fixup (canAlloc : Nat → Bool) (fixup : Option Stage)
    (rdesc : List Nat) : List Nat × Nat :=
  match fixup with
  | none => (rdesc, rdesc.length)
  | some f =>
    match runStage canAlloc
      (f { allocated_capacity := HID_BPF_RDESC_FIXUP_SIZE,
           valid_length := min rdesc.length HID_BPF_RDESC_FIXUP_SIZE,
           bytes := rdesc.take HID_BPF_RDESC_FIXUP_SIZE })
      { allocated_capacity := HID_BPF_RDESC_FIXUP_SIZE,
        valid_length := min rdesc.length HID_BPF_RDESC_FIXUP_SIZE,
        bytes := rdesc.take HID_BPF_RDESC_FIXUP_SIZE } with
    | Except.error _ => (rdesc, rdesc.length)
    | Except.ok (ret, written, buf') =>
      if ret < 0 then (rdesc, rdesc.length)
      else if ret = 0 then (written, buf'.valid_length)
      else if buf'.allocated_capacity < ret.toNat then (rdesc, rdesc.length)
      else (written, ret.toNat)

/-- Modelled from the spec: one step of the attach/detach/dispatch/destroy
interaction on a device binding, used to state the whole-trace buffer
invariant. -/
inductive Op where
  | attachOp (s : ProgramSlot)
  | detachOp (ident : Nat)
  | dispatch (canAlloc : Nat → Bool) (input : List Nat)
  | destroy

/-- Modelled from the spec: applying one operation to the binding,
discarding the returned codes. -/
def stepOp (b : DeviceBinding) : Op → DeviceBinding
  | Op.attachOp s =>
    match attach b s with
    | Except.ok b' => b'
    | Except.error _ => b
  | Op.detachOp ident => detach b ident
  | Op.dispatch canAlloc input => (dispatchOp canAlloc b input).1
  | Op.destroy => destroyBinding b

/-- Modelled from the spec: running a whole sequence of operations. -/
def runOps (b : DeviceBinding) (ops : List Op) : DeviceBinding :=
  ops.foldl stepOp b

/-! ## Helper lemmas -/

theorem ensure_capacity_ok (canAlloc : Nat → Bool) (b b' : ReportBuffer) (n : Nat)
    (h : ensure_capacity canAlloc b n = (b', none)) :
    b'.valid_length = b.valid_length ∧ b.allocated_capacity ≤ b'.allocated_capacity := by
  unfold ensure_capacity at h
  split at h
  · cases h
    exact ⟨rfl, le_refl _⟩
  · split at h
    · cases h
      constructor
      · rfl
      · simp only [ReportBuffer.allocated_capacity]
        omega
    · cases h

theorem runStage_ok (canAlloc : Nat → Bool) (a : StageAction) :
    ∀ (b : ReportBuffer) (ret : Int) (w : List Nat) (b' : ReportBuffer),
    runStage canAlloc a b = Except.ok (ret, w, b') →
    b'.valid_length = b.valid_length ∧ b.allocated_capacity ≤ b'.allocated_capacity := by
  induction a with
  | done r wr =>
    intro b ret w b' h
    unfold runStage at h
    cases h
    exact ⟨rfl, le_refl _⟩
  | grow n cont ih =>
    intro b ret w b' h
    unfold runStage at h
    cases hec : ensure_capacity canAlloc b n with
    | mk bmid oe =>
      rw [hec] at h
      cases oe with
      | none =>
        simp only [] at h
        have hmid := ensure_capacity_ok canAlloc b bmid n hec
        have hrec := ih bmid bmid ret w b' h
        exact ⟨hrec.1.trans hmid.1, hmid.2.trans hrec.2⟩
      | some e => cases h

theorem runChainCount_ok_inv (canAlloc : Nat → Bool) (chain : List Stage) :
    ∀ (b b' : ReportBuffer) (n : Nat),
    runChainCount canAlloc chain b = (DispatchResult.ok b', n) →
    b.valid_length ≤ b.allocated_capacity →
    b'.valid_length ≤ b'.allocated_capacity := by
  induction chain with
  | nil =>
    intro b b' n h hb
    unfold runChainCount at h
    cases h
    exact hb
  | cons s rest ih =>
    intro b b' n h hb
    unfold runChainCount at h
    cases hrs : runStage canAlloc (s b) b with
    | error e =>
      rw [hrs] at h
      cases h
    | ok v =>
      obtain ⟨ret, w, bmid⟩ := v
      have hmid := runStage_ok canAlloc (s b) b ret w bmid hrs
      rw [hrs] at h
      simp only [] at h
      split at h
      · cases h
      · split at h
        · have h1 := congrArg Prod.fst h
          simp only [] at h1
          exact ih _ b' _ (Prod.ext h1 rfl) (by
            simp only [ReportBuffer.valid_length, ReportBuffer.allocated_capacity]
            omega)
        · split at h
          · cases h
          · have h1 := congrArg Prod.fst h
            simp only [] at h1
            exact ih _ b' _ (Prod.ext h1 rfl) (by
              simp only [ReportBuffer.valid_length, ReportBuffer.allocated_capacity]
              omega)

theorem runStage_done (canAlloc : Nat → Bool) (r : Int) (w : List Nat)
    (b : ReportBuffer) :
    runStage canAlloc (StageAction.done r w) b = Except.ok (r, w, b) := rfl

theorem runChainCount_cons (canAlloc : Nat → Bool) (s : Stage) (rest : List Stage)
    (b : ReportBuffer) :
    runChainCount canAlloc (s :: rest) b =
      (match runStage canAlloc (s b) b with
      | Except.error _ => (DispatchResult.outOfMemory, 1)
      | Except.ok (ret, written, b') =>
        if ret < 0 then
          (DispatchResult.discarded ret, 1)
        else if ret = 0 then
          ((runChainCount canAlloc rest { b' with bytes := written }).1,
           (runChainCount canAlloc rest { b' with bytes := written }).2 + 1)
        else if b'.allocated_capacity < ret.toNat then
          (DispatchResult.invalidLength, 1)
        else
          ((runChainCount canAlloc rest
              { b' with bytes := written, valid_length := ret.toNat }).1,
           (runChainCount canAlloc rest
              { b' with bytes := written, valid_length := ret.toNat }).2 + 1)) := rfl

theorem filter_partition_length (p : ProgramSlot → Bool) (l : List ProgramSlot) :
    (l.filter p).length + (l.filter (fun x => !(p x))).length = l.length := by
  induction l with
  | nil => rfl
  | cons a t ih =>
    by_cases h : p a = true <;> simp [List.filter_cons, h] <;> omega

theorem mem_insertSlot_self (s : ProgramSlot) (chain : List ProgramSlot) :
    s ∈ insertSlot s chain := by
  unfold insertSlot
  cases s.priority_flags with
  | before =>
    exact List.mem_append_right _ (List.mem_cons_self _ _)
  | default =>
    exact List.mem_append_right _ (List.mem_cons_self _ _)

theorem length_filter_insertSlot_le (s : ProgramSlot) (chain : List ProgramSlot)
    (q : ProgramSlot → Bool) (hq : q s = false) :
    ((insertSlot s chain).filter q).length ≤ chain.length := by
  have hq' : ¬(q s = true) := by simp [hq]
  unfold insertSlot
  cases s.priority_flags with
  | before =>
    rw [List.filter_append, List.filter_cons_of_neg hq', List.length_append]
    have h1 := List.length_filter_le q
      (chain.filter (fun t => t.priority_flags == Priority.before))
    have h2 := List.length_filter_le q
      (chain.filter (fun t => !(t.priority_flags == Priority.before)))
    have h3 := filter_partition_length
      (fun t => t.priority_flags == Priority.before) chain
    omega
  | default =>
    rw [List.filter_append, List.filter_cons_of_neg hq', List.filter_nil,
      List.length_append, List.length_nil]
    have h1 := List.length_filter_le q chain
    omega

theorem attach_ok_elim (b : DeviceBinding) (s : ProgramSlot) (b' : DeviceBinding)
    (h : attach b s = Except.ok b') :
    b.destroyed = false ∧ hasActiveIdent b.chain s.ident = false ∧
    b.chain.length < HID_BPF_MAX_PROGS_PER_DEV ∧
    (s.on_event.isNone && s.on_descriptor_fixup.isNone) = false ∧
    b' = { b with chain := insertSlot { s with active := true } b.chain } := by
  unfold attach at h
  by_cases hd : b.destroyed = true
  · rw [if_pos hd] at h
    cases h
  · rw [if_neg hd] at h
    by_cases ha : hasActiveIdent b.chain s.ident = true
    · rw [if_pos ha] at h
      cases h
    · rw [if_neg ha] at h
      by_cases hl : HID_BPF_MAX_PROGS_PER_DEV ≤ b.chain.length
      · rw [if_pos hl] at h
        cases h
      · rw [if_neg hl] at h
        by_cases hv : (s.on_event.isNone && s.on_descriptor_fixup.isNone) = true
        · rw [if_pos hv] at h
          cases h
        · rw [if_neg hv] at h
          cases h
          refine ⟨by simpa using hd, by simpa using ha, by omega,
            Bool.eq_false_iff.mpr hv, rfl⟩

theorem attach_ok_buf (b : DeviceBinding) (s : ProgramSlot) (b' : DeviceBinding)
    (h : attach b s = Except.ok b') : b'.buf = b.buf := by
  obtain ⟨-, -, -, -, hb⟩ := attach_ok_elim b s b' h
  rw [hb]

/-! ## Claim theorems -/

/-- C10: in `hid_bpf_ctx` the current size and the previous stage's return
value occupy the same storage (the source union): reading `retval` yields
the last value written to `size` and vice versa, so writing `size`
overwrites the `retval` the next stage observes. -/
theorem claim_C10_ctx_union (c : hid_bpf_ctx) (v v' : Int) :
    (c.setSize v).retval = v ∧
    (c.setRetval v).size = v ∧
    ((c.setRetval v').setSize v).retval = v ∧
    c.size = c.retval ∧
    (c.setSize v).allocated_size = c.allocated_size := by
  refine ⟨rfl, rfl, rfl, rfl, rfl⟩

/-- C4: when no programs are attached (no active event stage in the
chain), event dispatch is a byte-exact pass-through: the dispatched buffer
holds exactly the input bytes and the input length. -/
theorem claim_C4_empty_chain_passthrough (canAlloc : Nat → Bool)
    (bd : DeviceBinding) (input : List Nat)
    (h0 : bd.destroyed = false) (h1 : activeEventStages bd.chain = []) :
    ∃ buf', (dispatchOp canAlloc bd input).2 = DispatchResult.ok buf' ∧
      buf'.bytes = input ∧ buf'.valid_length = input.length := by
  unfold dispatchOp
  rw [h0, h1]
  simp only [Bool.false_eq_true, if_false]
  exact ⟨_, rfl, rfl, rfl⟩

theorem claim_C4_empty_chain_passthrough_witness :
    ∃ buf', (dispatchOp (fun _ => true)
        { chain := [], buf := { allocated_capacity := 8, valid_length := 0, bytes := [] },
          destroyed := false } [1, 2, 3]).2 = DispatchResult.ok buf' ∧
      buf'.bytes = [1, 2, 3] ∧ buf'.valid_length = 3 :=
  claim_C4_empty_chain_passthrough (fun _ => true)
    { chain := [], buf := { allocated_capacity := 8, valid_length := 0, bytes := [] },
      destroyed := false } [1, 2, 3] rfl rfl

/-- C1: during event dispatch, a stage's positive return value `k` is
checked against `allocated_capacity` at that stage: if
`k > allocated_capacity` the whole dispatch fails with `InvalidLength`
immediately, whatever the remaining stages are; otherwise `valid_length`
becomes `k` and iteration continues with the next stage. -/
theorem claim_C1_positive_return_per_stage (canAlloc : Nat → Bool) (s : Stage)
    (rest : List Stage) (b : ReportBuffer) (k : Int) (w : List Nat)
    (hk : 0 < k) (hs : s b = StageAction.done k w) :
    (b.allocated_capacity < k.toNat →
      runChain canAlloc (s :: rest) b = DispatchResult.invalidLength) ∧
    (k.toNat ≤ b.allocated_capacity →
      runChain canAlloc (s :: rest) b =
        runChain canAlloc rest { b with bytes := w, valid_length := k.toNat }) := by
  have hneg : ¬(k < 0) := by omega
  have hzero : ¬(k = 0) := by omega
  constructor
  · intro hcap
    unfold runChain
    rw [runChainCount_cons, hs, runStage_done]
    simp only [if_neg hneg, if_neg hzero, if_pos hcap]
  · intro hcap
    unfold runChain
    rw [runChainCount_cons, hs, runStage_done]
    simp only [if_neg hneg, if_neg hzero,
      if_neg (by omega : ¬(b.allocated_capacity < k.toNat))]

theorem claim_C1_positive_return_per_stage_witness :
    (0 : Int) < 9 ∧
    runChain (fun _ => true)
      [fun _ => StageAction.done 9 [5], fun _ => StageAction.done 0 []]
      { allocated_capacity := 4, valid_length := 4, bytes := [1, 2, 3, 4] } =
      DispatchResult.invalidLength := by
  refine ⟨by decide, ?_⟩
  have h := claim_C1_positive_return_per_stage (fun _ => true)
    (fun _ => StageAction.done 9 [5]) [fun _ => StageAction.done 0 []]
    { allocated_capacity := 4, valid_length := 4, bytes := [1, 2, 3, 4] } 9 [5]
    (by decide) rfl
  exact h.1 (by decide)

/-- C3: a stage returning a negative value halts the chain: the invocation
counter shows the remaining stages are never invoked, and the dispatch
result is `discarded` carrying that value as the reason code — a discard,
not the `invalidLength`/`outOfMemory` failures nor a successful
forwarding. -/
theorem claim_C3_negative_return_halts (canAlloc : Nat → Bool) (s : Stage)
    (rest : List Stage) (b : ReportBuffer) (r : Int) (w : List Nat)
    (hs : s b = StageAction.done r w) (hr : r < 0) :
    runChainCount canAlloc (s :: rest) b = (DispatchResult.discarded r, 1) := by
  rw [runChainCount_cons, hs, runStage_done]
  simp only [if_pos hr]

theorem claim_C3_negative_return_halts_witness :
    runChainCount (fun _ => true)
      [fun _ => StageAction.done (-5) [], fun _ => StageAction.done 2 [7]]
      { allocated_capacity := 4, valid_length := 2, bytes := [1, 2] } =
      (DispatchResult.discarded (-5), 1) :=
  claim_C3_negative_return_halts (fun _ => true)
    (fun _ => StageAction.done (-5) []) [fun _ => StageAction.done 2 [7]]
    { allocated_capacity := 4, valid_length := 2, bytes := [1, 2] } (-5) []
    rfl (by decide)

/-- C7: a stage returning `0` leaves `valid_length` unchanged and
processing continues; hence a chain whose stages all return `0` dispatches
successfully with the input `valid_length` (and capacity) unchanged. -/
theorem claim_C7_zero_return_keeps_length (canAlloc : Nat → Bool)
    (chain : List Stage)
    (h : ∀ s ∈ chain, ∀ b : ReportBuffer, ∃ w, s b = StageAction.done 0 w) :
    ∀ b : ReportBuffer, ∃ b', runChain canAlloc chain b = DispatchResult.ok b' ∧
      b'.valid_length = b.valid_length ∧
      b'.allocated_capacity = b.allocated_capacity := by
  induction chain with
  | nil =>
    intro b
    exact ⟨b, rfl, rfl, rfl⟩
  | cons s rest ih =>
    intro b
    obtain ⟨w, hw⟩ := h s (List.mem_cons_self s rest) b
    obtain ⟨b', hb', hlen, hcap⟩ :=
      ih (fun t ht => h t (List.mem_cons_of_mem s ht)) { b with bytes := w }
    refine ⟨b', ?_, hlen, hcap⟩
    unfold runChain
    rw [runChainCount_cons, hw, runStage_done]
    simp only [if_neg (by decide : ¬((0 : Int) < 0)), if_pos (rfl : (0 : Int) = 0)]
    unfold runChain at hb'
    exact hb'

theorem claim_C7_zero_return_keeps_length_witness :
    ∃ b', runChain (fun _ => true)
        [fun _ => StageAction.done 0 [9, 9], fun _ => StageAction.done 0 [3]]
        { allocated_capacity := 4, valid_length := 2, bytes := [1, 2] } =
        DispatchResult.ok b' ∧
      b'.valid_length = 2 ∧ b'.allocated_capacity = 4 :=
  claim_C7_zero_return_keeps_length (fun _ => true)
    [fun _ => StageAction.done 0 [9, 9], fun _ => StageAction.done 0 [3]]
    (by
      intro s hs b
      simp only [List.mem_cons, List.mem_singleton] at hs
      rcases hs with h | h | h
      · exact ⟨[9, 9], by rw [h]⟩
      · exact ⟨[3], by rw [h]⟩
      · cases h)
    { allocated_capacity := 4, valid_length := 2, bytes := [1, 2] }

/-- C5: `attach` fails with `Conflict` exactly when an active slot with
the same program identity is already in the chain, or the chain holds
`HID_BPF_MAX_PROGS_PER_DEV` slots, or the binding is destroyed; and after
a successful detach of the conflicting slot, re-attaching the same
identity succeeds. -/
theorem claim_C5_attach_conflict (b : DeviceBinding) (s : ProgramSlot) :
    (attach b s = Except.error AttachError.conflict ↔
      (b.destroyed = true ∨ hasActiveIdent b.chain s.ident = true ∨
        HID_BPF_MAX_PROGS_PER_DEV ≤ b.chain.length)) ∧
    (∀ b', attach b s = Except.ok b' →
      attach b' s = Except.error AttachError.conflict ∧
      ∃ b'', attach (detach b' s.ident) s = Except.ok b'') := by
  constructor
  · by_cases hd : b.destroyed = true
    · simp [attach, hd]
    · by_cases ha : hasActiveIdent b.chain s.ident = true
      · simp [attach, hd, ha]
      · by_cases hl : HID_BPF_MAX_PROGS_PER_DEV ≤ b.chain.length
        · simp [attach, hd, ha, hl]
        · by_cases hv : (s.on_event.isNone && s.on_descriptor_fixup.isNone) = true
          · simp [attach, hd, ha, hl, hv]
          · simp [attach, hd, ha, hl, hv]
  · intro b' h
    obtain ⟨hd, ha, hl, hv, hb⟩ := attach_ok_elim b s b' h
    have hmem : hasActiveIdent b'.chain s.ident = true := by
      rw [hb]
      unfold hasActiveIdent
      refine List.any_eq_true.mpr ⟨{ s with active := true }, mem_insertSlot_self _ _, ?_⟩
      simp
    constructor
    · unfold attach
      rw [if_neg (by simp [hb, hd]), if_pos (by simpa [hb] using hmem)]
    · have hdetlen : ((detach b' s.ident).chain).length < HID_BPF_MAX_PROGS_PER_DEV := by
        have : ((detach b' s.ident).chain).length ≤ b.chain.length := by
          unfold detach
          rw [hb]
          exact length_filter_insertSlot_le _ _ _ (by simp)
        omega
      have hdetid : hasActiveIdent (detach b' s.ident).chain s.ident = false := by
        unfold detach hasActiveIdent
        refine List.any_eq_false.mpr ?_
        intro t ht
        rw [List.mem_filter] at ht
        have := ht.2
        simp only [Bool.not_eq_true'] at this
        simp [this]
      refine ⟨{ detach b' s.ident with
        chain := insertSlot { s with active := true } (detach b' s.ident).chain }, ?_⟩
      unfold attach
      rw [if_neg (by simp [detach, hb, hd]), if_neg (by simp [hdetid]),
        if_neg (by omega), if_neg (by simp [hv])]

theorem claim_C5_attach_conflict_witness :
    (attach
        { chain := [{ ident := 7, priority_flags := Priority.default,
                      on_event := some (fun _ => StageAction.done 0 []),
                      on_descriptor_fixup := none, active := true }],
          buf := { allocated_capacity := 4, valid_length := 0, bytes := [] },
          destroyed := false }
        { ident := 7, priority_flags := Priority.default,
          on_event := some (fun _ => StageAction.done 0 []),
          on_descriptor_fixup := none, active := false } =
      Except.error AttachError.conflict) ∧
    (∃ b'', attach
        (detach
          { chain := [{ ident := 7, priority_flags := Priority.default,
                        on_event := some (fun _ => StageAction.done 0 []),
                        on_descriptor_fixup := none, active := true }],
            buf := { allocated_capacity := 4, valid_length := 0, bytes := [] },
            destroyed := false } 7)
        { ident := 7, priority_flags := Priority.default,
          on_event := some (fun _ => StageAction.done 0 []),
          on_descriptor_fixup := none, active := false } = Except.ok b'') :=
  (claim_C5_attach_conflict
    { chain := [], buf := { allocated_capacity := 4, valid_length := 0, bytes := [] },
      destroyed := false }
    { ident := 7, priority_flags := Priority.default,
      on_event := some (fun _ => StageAction.done 0 []),
      on_descriptor_fixup := none, active := false }).2
    { chain := [{ ident := 7, priority_flags := Priority.default,
                  on_event := some (fun _ => StageAction.done 0 []),
                  on_descriptor_fixup := none, active := true }],
      buf := { allocated_capacity := 4, valid_length := 0, bytes := [] },
      destroyed := false }
    rfl

/-- C6: chain insertion is priority-major, for an arbitrary (possibly
mixed) prior chain: a `Before`-flagged slot lands after the previously
attached `Before` slots and ahead of every previously attached `Default`
slot, all of them keeping their relative (FIFO) order, and a `Default`
slot is appended after everything; in particular a `Before` slot attached
to an all-`Default` chain becomes first in iteration order. -/
theorem claim_C6_priority_insertion (b : DeviceBinding) (s : ProgramSlot)
    (b' : DeviceBinding) (h : attach b s = Except.ok b') :
    (s.priority_flags = Priority.before →
      b'.chain =
        b.chain.filter (fun t => t.priority_flags == Priority.before) ++
          { s with active := true } ::
            b.chain.filter (fun t => !(t.priority_flags == Priority.before))) ∧
    (s.priority_flags = Priority.default →
      b'.chain = b.chain ++ [{ s with active := true }]) ∧
    (s.priority_flags = Priority.before →
      (∀ t ∈ b.chain, t.priority_flags = Priority.default) →
      b'.chain = { s with active := true } :: b.chain) := by
  obtain ⟨-, -, -, -, hb⟩ := attach_ok_elim b s b' h
  subst hb
  refine ⟨?_, ?_, ?_⟩
  · intro hp
    show insertSlot { s with active := true } b.chain = _
    unfold insertSlot
    simp only [hp]
  · intro hp
    show insertSlot { s with active := true } b.chain = _
    unfold insertSlot
    simp only [hp]
  · intro hp hall
    show insertSlot { s with active := true } b.chain = _
    unfold insertSlot
    simp only [hp]
    rw [List.filter_eq_nil_iff.mpr (by
        intro t ht
        simp [hall t ht]),
      List.filter_eq_self.mpr (by
        intro t ht
        simp [hall t ht])]
    rfl

theorem claim_C6_priority_insertion_witness :
    ({ chain := [{ ident := 1, priority_flags := Priority.before,
                   on_event := some (fun _ => StageAction.done 0 []),
                   on_descriptor_fixup := none, active := true },
                 { ident := 3, priority_flags := Priority.before,
                   on_event := some (fun _ => StageAction.done 0 []),
                   on_descriptor_fixup := none, active := true },
                 { ident := 2, priority_flags := Priority.default,
                   on_event := some (fun _ => StageAction.done 0 []),
                   on_descriptor_fixup := none, active := true }],
       buf := { allocated_capacity := 4, valid_length := 0, bytes := [] },
       destroyed := false } : DeviceBinding).chain =
      [{ ident := 1, priority_flags := Priority.before,
         on_event := some (fun _ => StageAction.done 0 []),
         on_descriptor_fixup := none, active := true },
       { ident := 3, priority_flags := Priority.before,
         on_event := some (fun _ => StageAction.done 0 []),
         on_descriptor_fixup := none, active := true },
       { ident := 2, priority_flags := Priority.default,
         on_event := some (fun _ => StageAction.done 0 []),
         on_descriptor_fixup := none, active := true }] :=
  (claim_C6_priority_insertion
    { chain := [{ ident := 1, priority_flags := Priority.before,
                  on_event := some (fun _ => StageAction.done 0 []),
                  on_descriptor_fixup := none, active := true },
                { ident := 2, priority_flags := Priority.default,
                  on_event := some (fun _ => StageAction.done 0 []),
                  on_descriptor_fixup := none, active := true }],
      buf := { allocated_capacity := 4, valid_length := 0, bytes := [] },
      destroyed := false }
    { ident := 3, priority_flags := Priority.before,
      on_event := some (fun _ => StageAction.done 0 []),
      on_descriptor_fixup := none, active := false }
    { chain := [{ ident := 1, priority_flags := Priority.before,
                  on_event := some (fun _ => StageAction.done 0 []),
                  on_descriptor_fixup := none, active := true },
                { ident := 3, priority_flags := Priority.before,
                  on_event := some (fun _ => StageAction.done 0 []),
                  on_descriptor_fixup := none, active := true },
                { ident := 2, priority_flags := Priority.default,
                  on_event := some (fun _ => StageAction.done 0 []),
                  on_descriptor_fixup := none, active := true }],
      buf := { allocated_capacity := 4, valid_length := 0, bytes := [] },
      destroyed := false }
    rfl).1 rfl

theorem dispatchOp_inv (canAlloc : Nat → Bool) (b : DeviceBinding) (input : List Nat)
    (h : b.buf.valid_length ≤ b.buf.allocated_capacity) :
    ((dispatchOp canAlloc b input).1).buf.valid_length ≤
      ((dispatchOp canAlloc b input).1).buf.allocated_capacity := by
  unfold dispatchOp
  by_cases hd : b.destroyed = true
  · rw [if_pos hd]
    exact h
  · rw [if_neg hd]
    cases hrc : runChain canAlloc (activeEventStages b.chain)
        { allocated_capacity := max b.buf.allocated_capacity input.length,
          valid_length := input.length,
          bytes := input } with
    | ok buf' =>
      unfold runChain at hrc
      exact runChainCount_ok_inv canAlloc (activeEventStages b.chain)
        { allocated_capacity := max b.buf.allocated_capacity input.length,
          valid_length := input.length,
          bytes := input } buf' _ (Prod.ext hrc rfl) (Nat.le_max_right _ _)
    | discarded r => exact h
    | invalidLength => exact h
    | outOfMemory => exact h

theorem stepOp_inv (b : DeviceBinding) (op : Op)
    (h : b.buf.valid_length ≤ b.buf.allocated_capacity) :
    (stepOp b op).buf.valid_length ≤ (stepOp b op).buf.allocated_capacity := by
  cases op with
  | attachOp s =>
    unfold stepOp
    cases ha : attach b s with
    | ok b' =>
      simp only [ha]
      rw [attach_ok_buf b s b' ha]
      exact h
    | error e =>
      simp only [ha]
      exact h
  | detachOp i => exact h
  | dispatch canAlloc input => exact dispatchOp_inv canAlloc b input h
  | destroy => exact h

/-- C2: the buffer invariant `valid_length ≤ allocated_capacity` holds at
every observation point of every sequence of attach, detach, dispatch and
destroy operations on one device binding, whatever the attached stage
callbacks do. -/
theorem claim_C2_buffer_invariant (b : DeviceBinding) (ops : List Op)
    (h : b.buf.valid_length ≤ b.buf.allocated_capacity) :
    (runOps b ops).buf.valid_length ≤ (runOps b ops).buf.allocated_capacity := by
  induction ops generalizing b with
  | nil => exact h
  | cons op rest ih => exact ih (stepOp b op) (stepOp_inv b op h)

theorem claim_C2_buffer_invariant_witness :
    (runOps
      { chain := [],
        buf := { allocated_capacity := 4, valid_length := 2, bytes := [1, 2] },
        destroyed := false }
      [Op.attachOp
        { ident := 7, priority_flags := Priority.before,
          on_event := some (fun _ => StageAction.done 3 [8, 8, 8]),
          on_descriptor_fixup := none, active := false },
       Op.dispatch (fun _ => true) [1, 2, 3],
       Op.detachOp 7,
       Op.destroy]).buf.valid_length ≤
    (runOps
      { chain := [],
        buf := { allocated_capacity := 4, valid_length := 2, bytes := [1, 2] },
        destroyed := false }
      [Op.attachOp
        { ident := 7, priority_flags := Priority.before,
          on_event := some (fun _ => StageAction.done 3 [8, 8, 8]),
          on_descriptor_fixup := none, active := false },
       Op.dispatch (fun _ => true) [1, 2, 3],
       Op.detachOp 7,
       Op.destroy]).buf.allocated_capacity :=
  claim_C2_buffer_invariant
    { chain := [],
      buf := { allocated_capacity := 4, valid_length := 2, bytes := [1, 2] },
      destroyed := false }
    [Op.attachOp
      { ident := 7, priority_flags := Priority.before,
        on_event := some (fun _ => StageAction.done 3 [8, 8, 8]),
        on_descriptor_fixup := none, active := false },
     Op.dispatch (fun _ => true) [1, 2, 3],
     Op.detachOp 7,
     Op.destroy]
    (by decide)

/-- C8: in the descriptor-fixup path, a negative return from the
registered fixup callback aborts the fixup and the device keeps the
original, un-fixed-up descriptor bytes. -/
theorem claim_C8_rdesc_fixup_fallback (canAlloc : Nat → Bool) (f : Stage)
    (rdesc : List Nat)
    (h : ∀ b : ReportBuffer, ∃ r w, f b = StageAction.done r w ∧ r < 0) :
    call_hid_bpf_rdesc_fixup canAlloc (some f) rdesc = (rdesc, rdesc.length) := by
  unfold call_hid_bpf_rdesc_fixup
  obtain ⟨r, w, hf, hr⟩ := h
    { allocated_capacity := HID_BPF_RDESC_FIXUP_SIZE,
      valid_length := min rdesc.length HID_BPF_RDESC_FIXUP_SIZE,
      bytes := rdesc.take HID_BPF_RDESC_FIXUP_SIZE }
  simp only [hf, runStage_done, if_pos hr]

theorem claim_C8_rdesc_fixup_fallback_witness :
    call_hid_bpf_rdesc_fixup (fun _ => true)
      (some (fun _ => StageAction.done (-22) [4, 4])) [1, 2, 3] = ([1, 2, 3], 3) :=
  claim_C8_rdesc_fixup_fallback (fun _ => true)
    (fun _ => StageAction.done (-22) [4, 4]) [1, 2, 3]
    (fun _ => ⟨-22, [4, 4], rfl, by decide⟩)

/-- C9: when `ensure_capacity` cannot satisfy an allocation it fails with
`OutOfMemory` and returns the buffer in its prior, unmodified state; a
capacity-growth failure inside a stage aborts the whole dispatch with
`OutOfMemory` like a negative-return abort, and a dispatch that reports
`OutOfMemory` leaves the device binding unchanged. -/
theorem claim_C9_oom_abort (canAlloc : Nat → Bool) (b : ReportBuffer) (n : Nat)
    (hcap : b.allocated_capacity < n) (halloc : canAlloc n = false) :
    ensure_capacity canAlloc b n = (b, some HidError.outOfMemory) ∧
    (∀ (s : Stage) (rest : List Stage) (cont : ReportBuffer → StageAction),
      s b = StageAction.grow n cont →
      runChain canAlloc (s :: rest) b = DispatchResult.outOfMemory) ∧
    (∀ (bd : DeviceBinding) (input : List Nat),
      (dispatchOp canAlloc bd input).2 = DispatchResult.outOfMemory →
      (dispatchOp canAlloc bd input).1 = bd) := by
  have h1 : ensure_capacity canAlloc b n = (b, some HidError.outOfMemory) := by
    unfold ensure_capacity
    rw [if_neg (by omega), if_neg (by simp [halloc])]
  refine ⟨h1, ?_, ?_⟩
  · intro s rest cont hs
    have h2 : runStage canAlloc (StageAction.grow n cont) b =
        Except.error HidError.outOfMemory := by
      unfold runStage
      rw [h1]
    unfold runChain
    rw [runChainCount_cons, hs, h2]
  · intro bd input hres
    by_cases hd : bd.destroyed = true
    · unfold dispatchOp
      rw [if_pos hd]
    · unfold dispatchOp at hres ⊢
      rw [if_neg hd] at hres ⊢
      cases hm : runChain canAlloc (activeEventStages bd.chain)
          { allocated_capacity := max bd.buf.allocated_capacity input.length,
            valid_length := input.length,
            bytes := input } with
      | ok buf' =>
        rw [hm] at hres
        simp at hres
      | discarded r => rfl
      | invalidLength => rfl
      | outOfMemory => rfl

theorem claim_C9_oom_abort_witness :
    runChain (fun _ => false)
      [fun _ => StageAction.grow 5 (fun _ => StageAction.done 0 [])]
      { allocated_capacity := 2, valid_length := 1, bytes := [9] } =
      DispatchResult.outOfMemory :=
  (claim_C9_oom_abort (fun _ => false)
    { allocated_capacity := 2, valid_length := 1, bytes := [9] } 5
    (by decide) rfl).2.1
    (fun _ => StageAction.grow 5 (fun _ => StageAction.done 0 []))
    [] (fun _ => StageAction.done 0 []) rfl
